import Mathlib

/-!
Verification development for the Octowire `LogicAnalyzer` module
(`owfmodules/logic/logic_analyzer.py`).

The Python source is shallowly embedded below:
machine integers become `Int` (Python integers are unbounded, `x >> i` is
floor division by `2 ^ i` and `x & 1` is `x mod 2`, which for the positive
divisors used here coincide with Lean `Int` `ediv`/`emod`), the logger
becomes an accumulated list of `(message, severity)` pairs, the serial
driver and the file system become explicit parameters that either succeed
with a value or fail with an error message, and the side effects of
`get_samples`/`run` become an explicit event trace.
-/

namespace LogicAnalyzer

/-- Diagnostic severities of the framework logger used by the module. -/
inductive Severity where
  | INFO
  | ERROR
  | SUCCESS
  deriving DecidableEq, Repr

/-- Index of the last occurrence of `c` in `cs`, `-1` when absent:
Python `str.rfind`, as used by `posixpath.splitext`. -/
def rfind (cs : List Char) (c : Char) : Int :=
  match (cs.enum.filter (fun p => p.2 == c)).getLast? with
  | some p => (p.1 : Int)
  | none => -1

/-- Model of `os.path.splitext` (posix): split off the extension at the
last dot that lies after the last path separator, except that leading dots
of the final path component never begin an extension. -/
def splitext (p : String) : String × String :=
  let cs := p.toList
  let sepIndex := rfind cs '/'
  let dotIndex := rfind cs '.'
  if dotIndex > sepIndex then
    if ((cs.drop (sepIndex + 1).toNat).take (dotIndex - sepIndex - 1).toNat).any
        (fun ch => ch != '.') then
      (String.mk (cs.take dotIndex.toNat), String.mk (cs.drop dotIndex.toNat))
    else (p, "")
  else (p, "")

/-- Python `str.upper`, restricted to ASCII, which is all the module needs
for its comparison against the literal `.CSV`. -/
def pyUpper (s : String) : String :=
  String.mk (s.toList.map Char.toUpper)

/-- The filename normalization performed by `get_samples` before anything
else: when `os.path.splitext(output_file)[1].upper() != .CSV` holds, append
`.csv` to the configured output path. -/
def normalize_output (output_file : String) : String :=
  if pyUpper (splitext output_file).2 ≠ ".CSV" then output_file ++ ".csv"
  else output_file

/-- `LogicAnalyzer.get_bits`: the source appends `(samples >> i) & 1` for
`i` in `range(8)`; Python `>> i` is floor division by `2 ^ i` and `& 1` is
`mod 2`, both of which agree with `Int` `ediv`/`emod` for these positive
divisors. -/
def get_bits (samples : Int) : List Int :=
  (List.range 8).map (fun i => (samples / 2 ^ i) % 2)

/-- The sample-rate whitelist hard-coded in `params_validator`. -/
def samplerate_values : List Int := [1000000, 5000000, 10000000, 18750000]

/-- Error text of the trigger check in `params_validator`. -/
def trigger_error_msg : String :=
  "Trigger GPIO pin must be >= 0. Setting it to an invalid pin number (16 or higher) will start the sniffing process immediately, without waiting for any I/O change."

/-- Error text of the sample-count check in `params_validator`. -/
def samples_error_msg : String :=
  "The number of sample must be defined between 1 and 131072."

/-- Error text of the sample-rate check in `params_validator`. -/
def samplerate_error_msg : String :=
  "The sample rate should be 1000000, 5000000 10000000 or 18750000)."

/-- Error text of the channel-count check in `params_validator`. -/
def channels_error_msg : String :=
  "The channels parameters must be defined between 1 and 8"

/-- `LogicAnalyzer.params_validator`: the boolean result together with the
diagnostics the logger received.  `samples in range(1, 131073)` is integer
membership `1 ≤ samples < 131073`, and likewise for `channels`. -/
def params_validator (trigger samples samplerate channels : Int) :
    Bool × List (String × Severity) :=
  if trigger < 0 then
    (false, [(trigger_error_msg, Severity.ERROR)])
  else if ¬ (1 ≤ samples ∧ samples < 131073) then
    (false, [(samples_error_msg, Severity.ERROR)])
  else if samplerate ∉ samplerate_values then
    (false, [(samplerate_error_msg, Severity.ERROR)])
  else if ¬ (1 ≤ channels ∧ channels < 9) then
    (false, [(channels_error_msg, Severity.ERROR)])
  else
    (true, [])

/-- The five option values `get_samples` reads from `self.options`. -/
structure CaptureRequest where
  trigger_gpio_pin : Int
  samples : Int
  samplerate : Int
  channels : Int
  output_file : String

/-- Observable effects of `get_samples`/`run`, in program order: logger
calls, the `logic_instance.sniff` call, the timing `print`, opening the
output file, each `writer.writerow` call, and closing the file. -/
inductive Event where
  | log : String → Severity → Event
  | sniff : Int → Int → Int → Event
  | printTiming : Event
  | openFile : String → Event
  | writeRow : List Int → Event
  | closeFile : Event
  deriving DecidableEq, Repr

/-- The SUCCESS diagnostic emitted after the CSV file is written, with the
normalized output path and the requested sample rate interpolated the way
`str.format` renders them. -/
def success_msg (output_file : String) (samplerate : Int) : String :=
  "Use the following command line to open the capture with pulseview: " ++
    "'pulseview(.exe) -i " ++ output_file ++ " -I csv:samplerate=" ++
    toString samplerate ++ "'"

/-- One row written by `csv.writer.writerow` for a list of bits: the
decimal rendering of each entry joined by commas (the `\r\n` line
terminator the writer appends is kept out of the line text). -/
def csv_row (bits : List Int) : String :=
  String.intercalate "," (bits.map toString)

/-- The lines of the output file produced by the writing loop of
`get_samples`, in order: one `csv_row` of `get_bits(b)[0:channels]` per
raw sample byte `b`. -/
def csv_lines (sampleBytes : List Int) (channels : Nat) : List String :=
  sampleBytes.map (fun b => csv_row ((get_bits b).take channels))

/-- `LogicAnalyzer.get_samples`, as a trace of events plus the exception
that escapes it, if any.  The `driver` parameter is the outcome of
`logic_instance.sniff` (raw sample bytes, or a raised error) and
`openResult` the outcome of `open(output_file, w)`; those are the two
fallible collaborator calls.  The slice `get_bits(...)[0:channels]` is
`List.take`; it is only reached with `channels` validated into `[1, 8]`. -/
def get_samplesE (req : CaptureRequest) (driver : Except String (List Int))
    (openResult : Except String Unit) : List Event × Option String :=
  let output_file := normalize_output req.output_file
  let v := params_validator req.trigger_gpio_pin req.samples req.samplerate req.channels
  let validatorEvents := v.2.map (fun m => Event.log m.1 m.2)
  if v.1 then
    let preSniff := validatorEvents ++
      [Event.log "Run the sniffing process..." Severity.INFO,
       Event.sniff req.trigger_gpio_pin req.samples req.samplerate]
    match driver with
    | Except.error e => (preSniff, some e)
    | Except.ok sampleBytes =>
      let preOpen := preSniff ++
        [Event.printTiming, Event.log "Save results in the CSV file..." Severity.INFO]
      match openResult with
      | Except.error e => (preOpen, some e)
      | Except.ok _ =>
        (preOpen ++ [Event.openFile output_file] ++
          sampleBytes.map
            (fun b => Event.writeRow ((get_bits b).take req.channels.toNat)) ++
          [Event.closeFile,
           Event.log (success_msg output_file req.samplerate) Severity.SUCCESS],
         none)
  else (validatorEvents, none)

/-- `LogicAnalyzer.run`: connect, and when a serial instance exists call
`get_samples` inside `try ... except (Exception, ValueError)`, turning any
escaped exception into an ERROR diagnostic.  The result's second component
is the exception escaping `run` itself. -/
def run (connected : Bool) (req : CaptureRequest) (driver : Except String (List Int))
    (openResult : Except String Unit) : List Event × Option String :=
  if connected then
    let r := get_samplesE req driver openResult
    match r.2 with
    | some err => (r.1 ++ [Event.log err Severity.ERROR], none)
    | none => (r.1, none)
  else ([], none)

/-- Recognizes `writer.writerow` events. -/
def is_write_event : Event → Bool
  | Event.writeRow _ => true
  | _ => false

/-- Recognizes file-open events. -/
def is_open_event : Event → Bool
  | Event.openFile _ => true
  | _ => false

/-- Recognizes `logic_instance.sniff` events. -/
def is_sniff_event : Event → Bool
  | Event.sniff _ _ _ => true
  | _ => false

/-- Recognizes SUCCESS-severity diagnostics. -/
def is_success_log : Event → Bool
  | Event.log _ Severity.SUCCESS => true
  | _ => false

/-- The paths of the files a trace opens, in order. -/
def opened_paths (evs : List Event) : List String :=
  evs.filterMap (fun e => match e with | Event.openFile p => some p | _ => none)

/-- Bit `i` of a natural number, as the `ediv`/`emod` formula computed by
`get_bits`, agrees with `Nat.testBit`. -/
lemma int_bit_eq_testBit (n i : Nat) :
    ((n : Int) / 2 ^ i) % 2 = if n.testBit i then 1 else 0 := by
  have h1 : ((n : Int) / 2 ^ i) % 2 = ((n / 2 ^ i % 2 : Nat) : Int) := by
    push_cast
    rfl
  rw [h1, Nat.testBit_to_div_mod]
  rcases Nat.mod_two_eq_zero_or_one (n / 2 ^ i) with h | h <;> simp [h]

/-- On a natural-number input, `get_bits` lists `Nat.testBit` 0 through 7. -/
lemma get_bits_natCast (n : Nat) :
    get_bits (n : Int) =
      (List.range 8).map (fun i => if n.testBit i then (1 : Int) else 0) := by
  simp only [get_bits]
  exact List.map_congr_left (fun i _ => int_bit_eq_testBit n i)

/-- Taking the first `c ≤ 8` entries of `get_bits` lists `Nat.testBit`
0 through `c - 1`. -/
lemma get_bits_take (n : Nat) (c : Nat) (hc : c ≤ 8) :
    (get_bits (n : Int)).take c =
      (List.range c).map (fun i => if n.testBit i then (1 : Int) else 0) := by
  rw [get_bits_natCast, ← List.map_take, List.take_range, min_eq_left hc]

/-- `get_bits` only looks at its argument modulo 256. -/
lemma get_bits_mod256 (b : Int) : get_bits b = get_bits (b % 256) := by
  have hr : List.range 8 = [0, 1, 2, 3, 4, 5, 6, 7] := rfl
  simp only [get_bits, hr, List.map_cons, List.map_nil, List.cons.injEq, and_true]
  norm_num
  omega

/-- Every entry of `get_bits` is 0 or 1, for every integer input. -/
lemma get_bits_zero_one (b : Int) : ∀ x ∈ get_bits b, x = 0 ∨ x = 1 := by
  intro x hx
  have hr : List.range 8 = [0, 1, 2, 3, 4, 5, 6, 7] := rfl
  simp only [get_bits, hr, List.map_cons, List.map_nil, List.mem_cons,
    List.not_mem_nil, or_false] at hx
  norm_num at hx
  rcases hx with h | h | h | h | h | h | h | h <;> subst h <;> omega

/-- C1: for every 8-bit raw sample byte `b`, `get_bits b` is the ordered
8-element sequence whose element `i` is bit `i` of `b` (least-significant
bit first), and for every channel count `c ≤ 8` its first `c` elements are
bits 0 through `c - 1` of `b` in ascending order. -/
theorem c1_get_bits_lsb_first (b : Int) (h0 : 0 ≤ b) (h256 : b < 256) :
    (get_bits b).length = 8 ∧
    (∀ c : Nat, c ≤ 8 →
      (get_bits b).take c =
        (List.range c).map (fun i => if b.toNat.testBit i then (1 : Int) else 0)) := by
  obtain ⟨n, rfl⟩ := Int.eq_ofNat_of_zero_le h0
  refine ⟨by simp [get_bits], fun c hc => ?_⟩
  rw [Int.toNat_natCast]
  exact get_bits_take n c hc

/-- C1 witness: instantiated at the raw byte 5 with channel counts 3 and 8,
reproducing the rows `[1, 0, 1]` and `[1, 0, 1, 0, 0, 0, 0, 0]`. -/
theorem c1_get_bits_lsb_first_witness :
    (0 : Int) ≤ 5 ∧ (5 : Int) < 256 ∧
    (get_bits 5).take 3 = [1, 0, 1] ∧
    (get_bits 5).take 8 = [1, 0, 1, 0, 0, 0, 0, 0] := by
  have h := c1_get_bits_lsb_first 5 (by norm_num) (by norm_num)
  refine ⟨by norm_num, by norm_num, ?_, ?_⟩
  · rw [h.2 3 (by norm_num)]
    decide
  · rw [h.2 8 (by norm_num)]
    decide

/-- C9: `get_bits` is total on every integer, depends only on the input
modulo 256, always has length 8, and every element is 0 or 1. -/
theorem c9_get_bits_total_mod256 (b : Int) :
    get_bits b = get_bits (b % 256) ∧
    (get_bits b).length = 8 ∧
    (∀ x ∈ get_bits b, x = 0 ∨ x = 1) := by
  exact ⟨get_bits_mod256 b, by simp [get_bits], get_bits_zero_one b⟩

/-- C9 witness: instantiated at the negative input `-1`, whose bits match
those of `255`, with the membership hypothesis discharged at the element
`1`. -/
theorem c9_get_bits_total_mod256_witness :
    get_bits (-1) = get_bits 255 ∧ ((1 : Int) = 0 ∨ (1 : Int) = 1) := by
  have h := c9_get_bits_total_mod256 (-1)
  refine ⟨?_, h.2.2 1 (by decide)⟩
  have h256 : (-1 : Int) % 256 = 255 := by decide
  rw [h.1, h256]

/-- `params_validator` accepts exactly when all four constraints hold. -/
lemma params_validator_true_iff (t s r c : Int) :
    (params_validator t s r c).1 = true ↔
      (0 ≤ t ∧ 1 ≤ s ∧ s ≤ 131072 ∧ r ∈ samplerate_values ∧ 1 ≤ c ∧ c ≤ 8) := by
  unfold params_validator
  split_ifs with h1 h2 h3 h4 <;> simp_all <;> omega

/-- `params_validator` logs nothing on success and exactly one ERROR
diagnostic on failure. -/
lemma params_validator_msgs (t s r c : Int) :
    ((params_validator t s r c).1 = true → (params_validator t s r c).2 = []) ∧
    ((params_validator t s r c).1 = false →
      ∃ m, (params_validator t s r c).2 = [(m, Severity.ERROR)]) := by
  unfold params_validator
  split_ifs <;> simp

/-- With the other three parameters valid, a sample rate outside the
whitelist makes `params_validator` fail with the sample-rate ERROR. -/
lemma params_validator_samplerate_reject (t s r c : Int) (ht : 0 ≤ t)
    (hs1 : 1 ≤ s) (hs2 : s ≤ 131072) (hr : r ∉ samplerate_values) :
    params_validator t s r c = (false, [(samplerate_error_msg, Severity.ERROR)]) := by
  unfold params_validator
  split_ifs <;> first | rfl | omega | simp_all

/-- C3: `params_validator` returns `true` iff the trigger is nonnegative,
the sample count lies in `[1, 131072]`, the sample rate is whitelisted and
the channel count lies in `[1, 8]`; on success it emits no diagnostic, and
on failure exactly one ERROR-severity diagnostic. -/
theorem c3_params_validator_spec (t s r c : Int) :
    ((params_validator t s r c).1 = true ↔
      (0 ≤ t ∧ 1 ≤ s ∧ s ≤ 131072 ∧ r ∈ samplerate_values ∧ 1 ≤ c ∧ c ≤ 8)) ∧
    ((params_validator t s r c).1 = true → (params_validator t s r c).2 = []) ∧
    ((params_validator t s r c).1 = false →
      ∃ m, (params_validator t s r c).2 = [(m, Severity.ERROR)]) :=
  ⟨params_validator_true_iff t s r c, params_validator_msgs t s r c⟩

/-- C3 witness: the default parameters are accepted with no diagnostic,
and a negative trigger is rejected with a single ERROR diagnostic. -/
theorem c3_params_validator_spec_witness :
    (params_validator 16 131072 18750000 8).1 = true ∧
    (params_validator 16 131072 18750000 8).2 = [] ∧
    (params_validator (-1) 4 1000000 8).1 = false ∧
    (∃ m, (params_validator (-1) 4 1000000 8).2 = [(m, Severity.ERROR)]) := by
  have h1 := c3_params_validator_spec 16 131072 18750000 8
  have h2 := c3_params_validator_spec (-1) 4 1000000 8
  have hb1 : (params_validator 16 131072 18750000 8).1 = true :=
    h1.1.mpr (by norm_num [samplerate_values])
  have hb2 : (params_validator (-1) 4 1000000 8).1 = false := by decide
  exact ⟨hb1, h1.2.1 hb1, hb2, h2.2.2 hb2⟩

/-- C4: with the other three parameters held valid, `params_validator`
accepts a sample rate iff it is one of 1000000, 5000000, 10000000 or
18750000; any other value is rejected with the sample-rate ERROR
diagnostic, and the configured whitelist is exactly that set. -/
theorem c4_samplerate_whitelist (t s r c : Int) (ht : 0 ≤ t) (hs1 : 1 ≤ s)
    (hs2 : s ≤ 131072) (hc1 : 1 ≤ c) (hc2 : c ≤ 8) :
    ((params_validator t s r c).1 = true ↔
      (r = 1000000 ∨ r = 5000000 ∨ r = 10000000 ∨ r = 18750000)) ∧
    (r ∉ samplerate_values →
      params_validator t s r c = (false, [(samplerate_error_msg, Severity.ERROR)])) ∧
    samplerate_values = [1000000, 5000000, 10000000, 18750000] := by
  refine ⟨?_, fun hr => params_validator_samplerate_reject t s r c ht hs1 hs2 hr, rfl⟩
  rw [params_validator_true_iff]
  simp [samplerate_values, ht, hs1, hs2, hc1, hc2]

/-- C4 witness: the near-miss rates 3000000 and 999999 are rejected with
the sample-rate ERROR diagnostic even though all other parameters are
valid. -/
theorem c4_samplerate_whitelist_witness :
    params_validator 16 4 3000000 2
      = (false, [(samplerate_error_msg, Severity.ERROR)]) ∧
    params_validator 16 4 999999 2
      = (false, [(samplerate_error_msg, Severity.ERROR)]) := by
  have h1 := c4_samplerate_whitelist 16 4 3000000 2 (by norm_num) (by norm_num)
    (by norm_num) (by norm_num) (by norm_num)
  have h2 := c4_samplerate_whitelist 16 4 999999 2 (by norm_num) (by norm_num)
    (by norm_num) (by norm_num) (by norm_num)
  exact ⟨h1.2.1 (by decide), h2.2.1 (by decide)⟩

/-- Logger events open no file. -/
lemma opened_paths_map_log (msgs : List (String × Severity)) :
    opened_paths (msgs.map (fun m => Event.log m.1 m.2)) = [] := by
  induction msgs with
  | nil => rfl
  | cons h t ih => simpa [opened_paths, List.filterMap_cons] using ih

/-- Row-writing events open no file. -/
lemma opened_paths_map_write (f : Int → List Int) (bs : List Int) :
    opened_paths (bs.map (fun b => Event.writeRow (f b))) = [] := by
  induction bs with
  | nil => rfl
  | cons h t ih => simpa [opened_paths, List.filterMap_cons] using ih

/-- `opened_paths` distributes over concatenation. -/
lemma opened_paths_append (a b : List Event) :
    opened_paths (a ++ b) = opened_paths a ++ opened_paths b := by
  simp [opened_paths, List.filterMap_append]

/-- `opened_paths` skips a leading logger event. -/
lemma opened_paths_log_cons (m : String) (sev : Severity) (rest : List Event) :
    opened_paths (Event.log m sev :: rest) = opened_paths rest := rfl

/-- `opened_paths` skips a leading sniff event. -/
lemma opened_paths_sniff_cons (a b c : Int) (rest : List Event) :
    opened_paths (Event.sniff a b c :: rest) = opened_paths rest := rfl

/-- `opened_paths` skips a leading timing print. -/
lemma opened_paths_print_cons (rest : List Event) :
    opened_paths (Event.printTiming :: rest) = opened_paths rest := rfl

/-- `opened_paths` skips a leading close event. -/
lemma opened_paths_close_cons (rest : List Event) :
    opened_paths (Event.closeFile :: rest) = opened_paths rest := rfl

/-- `opened_paths` records a leading open event. -/
lemma opened_paths_open_cons (p : String) (rest : List Event) :
    opened_paths (Event.openFile p :: rest) = p :: opened_paths rest := rfl

/-- `opened_paths` of the empty trace. -/
lemma opened_paths_nil : opened_paths [] = [] := rfl

/-- Every file the `get_samples` pipeline opens carries the normalized
output path, and at most one file is opened. -/
lemma opened_paths_get_samplesE (req : CaptureRequest)
    (driver : Except String (List Int)) (openResult : Except String Unit) :
    opened_paths (get_samplesE req driver openResult).1 = [] ∨
    opened_paths (get_samplesE req driver openResult).1
      = [normalize_output req.output_file] := by
  unfold get_samplesE
  dsimp only
  split_ifs with hv
  · cases driver with
    | error e =>
      left
      simp [opened_paths_append, opened_paths_map_log, opened_paths_log_cons,
        opened_paths_sniff_cons, opened_paths_nil]
    | ok sampleBytes =>
      cases openResult with
      | error e =>
        left
        simp [opened_paths_append, opened_paths_map_log, opened_paths_log_cons,
          opened_paths_sniff_cons, opened_paths_print_cons, opened_paths_nil]
      | ok u =>
        right
        simp [opened_paths_append, opened_paths_map_log, opened_paths_map_write,
          opened_paths_log_cons, opened_paths_sniff_cons, opened_paths_print_cons,
          opened_paths_open_cons, opened_paths_close_cons, opened_paths_nil]
  · left
    exact opened_paths_map_log _

/-- Normalization either keeps the path or appends `.csv`; it never
replaces an existing extension. -/
lemma normalize_output_or (p : String) :
    normalize_output p = p ∨ normalize_output p = p ++ ".csv" := by
  unfold normalize_output
  split_ifs <;> simp

/-- C5: the filename normalization keeps a path whose extension is
case-insensitively `.csv` unchanged and otherwise appends `.csv` literally
(never replacing an existing extension), as on the spec examples; and in
the pipeline every opened file carries exactly the normalized path. -/
theorem c5_normalize_extension :
    (∀ p : String,
      (pyUpper (splitext p).2 = ".CSV" → normalize_output p = p) ∧
      (pyUpper (splitext p).2 ≠ ".CSV" → normalize_output p = p ++ ".csv") ∧
      (normalize_output p = p ∨ normalize_output p = p ++ ".csv")) ∧
    normalize_output "trace" = "trace.csv" ∧
    normalize_output "trace.CSV" = "trace.CSV" ∧
    normalize_output "trace.txt" = "trace.txt.csv" ∧
    normalize_output "out.csv" = "out.csv" ∧
    (∀ (req : CaptureRequest) (driver : Except String (List Int))
        (openResult : Except String Unit),
      opened_paths (get_samplesE req driver openResult).1 = [] ∨
      opened_paths (get_samplesE req driver openResult).1
        = [normalize_output req.output_file]) := by
  refine ⟨fun p => ⟨fun h => ?_, fun h => ?_, ?_⟩, by decide, by decide, by decide,
    by decide, opened_paths_get_samplesE⟩
  · simp [normalize_output, h]
  · simp [normalize_output, h]
  · exact normalize_output_or p

/-- C5 witness: the per-path clauses instantiated at `trace.CSV` (extension
already `.csv` up to case) and at `trace` (no extension). -/
theorem c5_normalize_extension_witness :
    normalize_output "trace.CSV" = "trace.CSV" ∧
    normalize_output "trace" = "trace" ++ ".csv" := by
  have h := c5_normalize_extension
  exact ⟨(h.1 "trace.CSV").1 (by decide), (h.1 "trace").2.1 (by decide)⟩

/-- C10: a bare dotfile name such as `.csv` has an empty extension for
`splitext`, so normalization appends `.csv` anyway, producing `.csv.csv`;
in particular the empty path normalizes to `.csv` and then to `.csv.csv`,
so normalization is not idempotent on all strings. -/
theorem c10_dotfile_double_extension :
    splitext ".csv" = (".csv", "") ∧
    normalize_output ".csv" = ".csv.csv" ∧
    normalize_output "" = ".csv" ∧
    normalize_output (normalize_output "") = ".csv.csv" ∧
    normalize_output (normalize_output "") ≠ normalize_output "" := by
  refine ⟨by decide, by decide, by decide, by decide, by decide⟩

/-- One written row, for a nonnegative sample value: the comma-joined
digits of bits 0 through `c - 1`. -/
lemma csv_row_take (n : Nat) (c : Nat) (hc : c ≤ 8) :
    csv_row ((get_bits (n : Int)).take c)
      = String.intercalate ","
          ((List.range c).map (fun i => if n.testBit i then "1" else "0")) := by
  rw [csv_row, get_bits_take n c hc, List.map_map]
  congr 1
  apply List.map_congr_left
  intro i _
  by_cases h : n.testBit i <;> simp [h] <;> rfl

/-- C2: the encoding step writes exactly one row per raw sample, in the
original order, row `j` being the first `c` decoded bits of sample `j`
joined by commas, with no header row and no trailing metadata: the file
has exactly as many lines as there are samples. -/
theorem c2_one_row_per_sample (sampleBytes : List Int) (c : Nat)
    (hc : c ≤ 8) (hb : ∀ b ∈ sampleBytes, 0 ≤ b ∧ b < 256) :
    (csv_lines sampleBytes c).length = sampleBytes.length ∧
    ∀ j (hj : j < sampleBytes.length),
      (csv_lines sampleBytes c).get ⟨j, by simpa [csv_lines] using hj⟩
        = String.intercalate ","
            ((List.range c).map
              (fun i => if (sampleBytes.get ⟨j, hj⟩).toNat.testBit i
                then "1" else "0")) := by
  refine ⟨by simp [csv_lines], fun j hj => ?_⟩
  have hmem : sampleBytes.get ⟨j, hj⟩ ∈ sampleBytes := List.get_mem _ _ _
  have h0 : 0 ≤ sampleBytes.get ⟨j, hj⟩ := (hb _ hmem).1
  have hcast : ((sampleBytes.get ⟨j, hj⟩).toNat : Int) = sampleBytes.get ⟨j, hj⟩ :=
    Int.toNat_of_nonneg h0
  calc (csv_lines sampleBytes c).get ⟨j, by simpa [csv_lines] using hj⟩
      = csv_row ((get_bits (sampleBytes.get ⟨j, hj⟩)).take c) := by
        simp [csv_lines, List.get_eq_getElem, List.getElem_map]
    _ = _ := by
        conv_lhs => rw [← hcast]
        exact csv_row_take _ c hc

/-- C2 witness: the sample sequence `[5, 0, 255]` with 3 channels produces
exactly 3 lines, the first being `1,0,1` and the last `1,1,1`. -/
theorem c2_one_row_per_sample_witness :
    (csv_lines [5, 0, 255] 3).length = 3 ∧
    (csv_lines [5, 0, 255] 3).get ⟨0, by simp [csv_lines]⟩ = "1,0,1" ∧
    (csv_lines [5, 0, 255] 3).get ⟨2, by simp [csv_lines]⟩ = "1,1,1" := by
  have h := c2_one_row_per_sample [5, 0, 255] 3 (by norm_num) (by decide)
  refine ⟨h.1, ?_, ?_⟩
  · rw [h.2 0 (by norm_num)]
    decide
  · rw [h.2 2 (by norm_num)]
    decide

/-- C6: whenever `params_validator` rejects, `get_samples` performs only
the validator's diagnostics: the driver's sniff call is never made, no
file is opened or written, and no exception escapes. -/
theorem c6_no_acquisition_on_reject (req : CaptureRequest)
    (driver : Except String (List Int)) (openResult : Except String Unit)
    (h : (params_validator req.trigger_gpio_pin req.samples req.samplerate
        req.channels).1 = false) :
    (get_samplesE req driver openResult).1
      = (params_validator req.trigger_gpio_pin req.samples req.samplerate
          req.channels).2.map (fun m => Event.log m.1 m.2) ∧
    (∀ e ∈ (get_samplesE req driver openResult).1,
      is_sniff_event e = false ∧ is_open_event e = false ∧ is_write_event e = false) ∧
    (get_samplesE req driver openResult).2 = none := by
  have htrace : get_samplesE req driver openResult
      = ((params_validator req.trigger_gpio_pin req.samples req.samplerate
          req.channels).2.map (fun m => Event.log m.1 m.2), none) := by
    unfold get_samplesE
    dsimp only
    rw [h]
    simp
  refine ⟨by rw [htrace], ?_, by rw [htrace]⟩
  intro e he
  rw [htrace] at he
  obtain ⟨m, _, rfl⟩ := List.mem_map.1 he
  exact ⟨rfl, rfl, rfl⟩

/-- C6 witness: the over-large request of 200000 samples is rejected, the
trace holds only the sample-count ERROR diagnostic, and no sniff, open or
write event occurs even though the driver stub would have returned data. -/
theorem c6_no_acquisition_on_reject_witness :
    (params_validator 16 200000 1000000 8).1 = false ∧
    (get_samplesE ⟨16, 200000, 1000000, 8, "trace"⟩ (Except.ok [1])
        (Except.ok ())).1
      = [Event.log samples_error_msg Severity.ERROR] ∧
    (get_samplesE ⟨16, 200000, 1000000, 8, "trace"⟩ (Except.ok [1])
        (Except.ok ())).2 = none := by
  have h := c6_no_acquisition_on_reject ⟨16, 200000, 1000000, 8, "trace"⟩
    (Except.ok [1]) (Except.ok ()) (by decide)
  refine ⟨by decide, ?_, h.2.2⟩
  rw [h.1]
  decide

/-- C7: `run` never lets an exception escape: its result carries no
exception for any connection state, request and collaborator outcome, and
any exception the pipeline raises is appended to the trace as exactly one
ERROR diagnostic. -/
theorem c7_run_catches_everything (connected : Bool) (req : CaptureRequest)
    (driver : Except String (List Int)) (openResult : Except String Unit) :
    (run connected req driver openResult).2 = none ∧
    (∀ e, (get_samplesE req driver openResult).2 = some e →
      run true req driver openResult
        = ((get_samplesE req driver openResult).1
            ++ [Event.log e Severity.ERROR], none)) := by
  refine ⟨?_, fun e he => by simp [run, he]⟩
  cases connected with
  | false => simp [run]
  | true =>
    cases hz : (get_samplesE req driver openResult).2 with
    | none => simp [run, hz]
    | some e => simp [run, hz]

/-- C7 witness: a sniff failure (a raised transport error) on a valid
request is converted into a trailing ERROR diagnostic and `run` still
returns normally. -/
theorem c7_run_catches_everything_witness :
    (run true ⟨16, 4, 1000000, 2, "trace"⟩ (Except.error "Serial error")
        (Except.ok ())).2 = none ∧
    run true ⟨16, 4, 1000000, 2, "trace"⟩ (Except.error "Serial error")
        (Except.ok ())
      = ((get_samplesE ⟨16, 4, 1000000, 2, "trace"⟩ (Except.error "Serial error")
          (Except.ok ())).1 ++ [Event.log "Serial error" Severity.ERROR], none) := by
  have h := c7_run_catches_everything true ⟨16, 4, 1000000, 2, "trace"⟩
    (Except.error "Serial error") (Except.ok ())
  exact ⟨h.1, h.2 "Serial error" (by decide)⟩

/-- Filtering SUCCESS diagnostics skips a write event. -/
lemma filter_success_write (bits : List Int) (rest : List Event) :
    (Event.writeRow bits :: rest).filter is_success_log
      = rest.filter is_success_log := rfl

/-- Row-writing events are not SUCCESS diagnostics. -/
lemma filter_success_map_write (f : Int → List Int) (bs : List Int) :
    (bs.map (fun b => Event.writeRow (f b))).filter is_success_log = [] := by
  induction bs with
  | nil => rfl
  | cons h t ih => rw [List.map_cons, filter_success_write]; exact ih

/-- Filtering SUCCESS diagnostics skips an INFO log. -/
lemma filter_success_log_info (m : String) (rest : List Event) :
    (Event.log m Severity.INFO :: rest).filter is_success_log
      = rest.filter is_success_log := rfl

/-- Filtering SUCCESS diagnostics skips a sniff event. -/
lemma filter_success_sniff (a b c : Int) (rest : List Event) :
    (Event.sniff a b c :: rest).filter is_success_log
      = rest.filter is_success_log := rfl

/-- Filtering SUCCESS diagnostics skips the timing print. -/
lemma filter_success_print (rest : List Event) :
    (Event.printTiming :: rest).filter is_success_log
      = rest.filter is_success_log := rfl

/-- Filtering SUCCESS diagnostics skips an open event. -/
lemma filter_success_open (p : String) (rest : List Event) :
    (Event.openFile p :: rest).filter is_success_log
      = rest.filter is_success_log := rfl

/-- Filtering SUCCESS diagnostics skips a close event. -/
lemma filter_success_close (rest : List Event) :
    (Event.closeFile :: rest).filter is_success_log
      = rest.filter is_success_log := rfl

/-- Filtering SUCCESS diagnostics keeps a SUCCESS log. -/
lemma filter_success_log_success (m : String) (rest : List Event) :
    (Event.log m Severity.SUCCESS :: rest).filter is_success_log
      = Event.log m Severity.SUCCESS :: rest.filter is_success_log := rfl

/-- C8: on a successful capture (validation passed, sniff and file output
succeeded) the trace carries exactly one SUCCESS diagnostic, whose text is
the pulseview guidance holding the output path and the sample rate of the
request, and no exception escapes. -/
theorem c8_success_diagnostic (req : CaptureRequest) (sampleBytes : List Int)
    (hv : (params_validator req.trigger_gpio_pin req.samples req.samplerate
        req.channels).1 = true) :
    ((get_samplesE req (Except.ok sampleBytes) (Except.ok ())).1.filter
        is_success_log
      = [Event.log (success_msg (normalize_output req.output_file) req.samplerate)
          Severity.SUCCESS]) ∧
    (∃ s t : String,
      success_msg (normalize_output req.output_file) req.samplerate
        = s ++ req.output_file ++ t) ∧
    (∃ s t : String,
      success_msg (normalize_output req.output_file) req.samplerate
        = s ++ toString req.samplerate ++ t) ∧
    (get_samplesE req (Except.ok sampleBytes) (Except.ok ())).2 = none := by
  have hmsgs := (params_validator_msgs req.trigger_gpio_pin req.samples
    req.samplerate req.channels).1 hv
  have htrace : get_samplesE req (Except.ok sampleBytes) (Except.ok ())
      = ([Event.log "Run the sniffing process..." Severity.INFO,
          Event.sniff req.trigger_gpio_pin req.samples req.samplerate,
          Event.printTiming,
          Event.log "Save results in the CSV file..." Severity.INFO,
          Event.openFile (normalize_output req.output_file)] ++
          sampleBytes.map
            (fun b => Event.writeRow ((get_bits b).take req.channels.toNat)) ++
          [Event.closeFile,
           Event.log (success_msg (normalize_output req.output_file)
             req.samplerate) Severity.SUCCESS], none) := by
    unfold get_samplesE
    dsimp only
    rw [hv, hmsgs]
    simp
  refine ⟨?_, ?_, ?_, by rw [htrace]⟩
  · rw [htrace]
    simp only [List.filter_append, filter_success_map_write,
      filter_success_log_info, filter_success_sniff, filter_success_print,
      filter_success_open, filter_success_close, filter_success_log_success,
      List.filter_nil]
    simp
  · rcases normalize_output_or req.output_file with hn | hn <;> rw [hn]
    · exact ⟨"Use the following command line to open the capture with pulseview: " ++
        "'pulseview(.exe) -i ",
        " -I csv:samplerate=" ++ toString req.samplerate ++ "'", by
          simp [success_msg, String.append_assoc]⟩
    · exact ⟨"Use the following command line to open the capture with pulseview: " ++
        "'pulseview(.exe) -i ",
        ".csv -I csv:samplerate=" ++ toString req.samplerate ++ "'", by
          simp [success_msg, String.append_assoc]⟩
  · exact ⟨"Use the following command line to open the capture with pulseview: " ++
      "'pulseview(.exe) -i " ++ normalize_output req.output_file ++
      " -I csv:samplerate=", "'", by simp [success_msg, String.append_assoc]⟩

/-- C8 witness: the end-to-end request (trigger 16, 4 samples, rate
1000000, 2 channels, output `trace`) with driver bytes `[1, 2, 3, 255]`
yields exactly one SUCCESS diagnostic, naming `trace.csv` and containing
the requested path and rate. -/
theorem c8_success_diagnostic_witness :
    (get_samplesE ⟨16, 4, 1000000, 2, "trace"⟩ (Except.ok [1, 2, 3, 255])
        (Except.ok ())).1.filter is_success_log
      = [Event.log (success_msg "trace.csv" 1000000) Severity.SUCCESS] ∧
    (∃ s t : String, success_msg "trace.csv" 1000000 = s ++ "trace" ++ t) := by
  have h := c8_success_diagnostic ⟨16, 4, 1000000, 2, "trace"⟩ [1, 2, 3, 255]
    (by decide)
  have hn : normalize_output "trace" = "trace.csv" := by decide
  constructor
  · have h1 := h.1
    rw [show (⟨16, 4, 1000000, 2, "trace"⟩ : CaptureRequest).output_file
      = "trace" from rfl, hn] at h1
    exact h1
  · have h2 := h.2.1
    rw [show (⟨16, 4, 1000000, 2, "trace"⟩ : CaptureRequest).output_file
      = "trace" from rfl, hn] at h2
    exact h2


end LogicAnalyzer
